import Mathlib

/-!
Verification of the keytar secrets-manager core (`src/index.ts`).

The embedding models:
* the process environment as a partial map `EnvProvider` from variable
  names to string values (`none` = variable not set);
* the keytar credential store as a `Keytar` state: a flag `importable`
  (whether `await import("keytar")` succeeds), a flag `callsFail`
  (whether calls such as `getPassword`/`setPassword`/`deletePassword`
  throw), and an association list of `(service, account) -> value`
  entries;
* the `SecretsManager` class as a structure carrying its immutable
  `serviceName`, with each method embedded as a pure function that takes
  the environment and the store state explicitly and returns either a
  result (`getSecret`, `saveEnvToKeytar` never throw) or an
  `Except KtError` value (`setSecretToKeytar`, `deleteSecretFromKeytar`
  rethrow store failures to the caller).

`initializeSalt` is referenced by the repository's bin scripts and
README but has no implementation under `src/`; it is modelled from the
spec (see its doc comment).
-/

namespace KeytarSecrets

/-- Key of a credential-store entry: a `(service, account)` pair. -/
abbrev StoreKey := String × String

/-- Association list of credential-store entries, keyed by
`(service, account)`. -/
abbrev Entries := List (StoreKey × String)

/-- Look up the value stored under `key`, or `none` if no entry exists. -/
def findEntry : Entries → StoreKey → Option String
  | [], _ => none
  | (k, v) :: rest, key => if k = key then some v else findEntry rest key

/-- Write `value` under `key`, overwriting silently when an entry already
exists (mirrors keytar's `setPassword` last-write-wins semantics). -/
def setEntry : Entries → StoreKey → String → Entries
  | [], key, value => [(key, value)]
  | (k, v) :: rest, key, value =>
    if k = key then (key, value) :: rest else (k, v) :: setEntry rest key value

/-- Remove every entry stored under `key` (mirrors keytar's
`deletePassword`). -/
def removeEntry : Entries → StoreKey → Entries
  | [], _ => []
  | (k, v) :: rest, key =>
    if k = key then removeEntry rest key else (k, v) :: removeEntry rest key

/-- State of the external keytar credential store.  `importable` models
whether `await import("keytar")` succeeds; `callsFail` models whether
calls on the loaded module throw; `entries` is the store contents. -/
structure Keytar where
  importable : Bool
  callsFail : Bool
  entries : Entries
deriving DecidableEq, Repr

/-- Errors a store-backed write or delete can surface to its caller:
either the wrapper error thrown when the dynamic module load fails, or
the original error propagated from a keytar call. -/
inductive KtError where
  | moduleUnavailable : KtError
  | callFailed : KtError
deriving DecidableEq, Repr

/-- Drop leading whitespace characters from a character list. -/
def dropLeadingWs : List Char → List Char
  | [] => []
  | c :: cs => if c.isWhitespace then dropLeadingWs cs else c :: cs

/-- Model of JavaScript's `String.prototype.trim()`: strip whitespace
from both ends of the string. -/
def jsTrim (s : String) : String :=
  ⟨(dropLeadingWs (dropLeadingWs s.data).reverse).reverse⟩

/-- The process environment: `none` means the variable is not set. -/
abbrev EnvProvider := String → Option String

/-- The environment value for `name` is missing or blank: not set, the
empty string, or whitespace-only.  This is the negation of the guard
`fromEnv && fromEnv.trim() !== ""` used by `getSecret`, and exactly the
guard `!value || value.trim() === ""` used by `saveEnvToKeytar`. -/
def envBlank (env : EnvProvider) (name : String) : Bool :=
  match env name with
  | none => true
  | some v => v == "" || jsTrim v == ""

/-- The `SecretsManager` class (src/index.ts): holds only the immutable
service name given to its constructor. -/
structure SecretsManager where
  serviceName : String
deriving DecidableEq, Repr

namespace SecretsManager

/-- Store-lookup phase of `getSecret` (steps 2 and 3 of
src/index.ts:26-41): the whole phase sits in a `try` block, so an import
failure or a `getPassword` failure is caught and yields `""`; a found
truthy (non-empty) value is returned; a `null` or empty value falls
through to the final `return ""`. -/
def getSecretFromStore (st : Keytar) (m : SecretsManager) (name : String) :
    String :=
  if st.importable && !st.callsFail then
    match findEntry st.entries (m.serviceName, name) with
    | some value => if value != "" then value else ""
    | none => ""
  else ""

/-- `getSecret` (src/index.ts:19-42): environment first — a present,
non-blank value is returned immediately; otherwise the store is
consulted, with every store failure degraded to `""`. -/
def getSecret (env : EnvProvider) (st : Keytar) (m : SecretsManager)
    (name : String) : String :=
  match env name with
  | some fromEnv =>
    if fromEnv != "" && jsTrim fromEnv != "" then fromEnv
    else getSecretFromStore st m name
  | none => getSecretFromStore st m name

/-- `setSecretToKeytar` (src/index.ts:47-55): rethrows a wrapped error
when the keytar import fails, propagates a `setPassword` failure, and
otherwise writes `(serviceName, name) = value` into the store. -/
def setSecretToKeytar (st : Keytar) (m : SecretsManager)
    (name value : String) : Except KtError Keytar :=
  if !st.importable then .error .moduleUnavailable
  else if st.callsFail then .error .callFailed
  else .ok { st with entries := setEntry st.entries (m.serviceName, name) value }

/-- `deleteSecretFromKeytar` (src/index.ts:60-68): rethrows a wrapped
error when the keytar import fails, propagates a `deletePassword`
failure, and otherwise returns keytar's boolean — whether an entry was
actually removed — together with the store with the entry removed. -/
def deleteSecretFromKeytar (st : Keytar) (m : SecretsManager)
    (name : String) : Except KtError (Bool × Keytar) :=
  if !st.importable then .error .moduleUnavailable
  else if st.callsFail then .error .callFailed
  else .ok ((findEntry st.entries (m.serviceName, name)).isSome,
            { st with entries := removeEntry st.entries (m.serviceName, name) })

/-- `saveEnvToKeytar` (src/index.ts:75-90): returns `false` without
touching the store when the environment value is missing or blank;
otherwise attempts `setSecretToKeytar`, returning `true` on success and
catching any failure to return `false`. -/
def saveEnvToKeytar (env : EnvProvider) (st : Keytar) (m : SecretsManager)
    (name : String) : Bool × Keytar :=
  match env name with
  | none => (false, st)
  | some value =>
    if value == "" || jsTrim value == "" then (false, st)
    else
      match setSecretToKeytar st m name value with
      | .ok st2 => (true, st2)
      | .error _ => (false, st)

/-- Modelled from the spec: `initializeSalt` has no implementation under
`src/` (only its callers — bin/initialize.ts, README — appear).  Spec
§4.1: first read an existing salt stored under
`(baseServiceName, saltStorageKey)`; if found, return it unchanged even
when `providedSalt` differs; if absent, use `providedSalt` when supplied
and otherwise a freshly generated random token (passed here as
`generated`), and persist it under `(baseServiceName, saltStorageKey)`.
Store failures are surfaced to the caller. -/
def initializeSalt (st : Keytar) (m : SecretsManager)
    (saltStorageKey : String) (providedSalt : Option String)
    (generated : String) : Except KtError (String × Keytar) :=
  if !st.importable then .error .moduleUnavailable
  else if st.callsFail then .error .callFailed
  else
    match findEntry st.entries (m.serviceName, saltStorageKey) with
    | some existing => .ok (existing, st)
    | none =>
      let salt := providedSalt.getD generated
      .ok (salt,
           { st with
             entries := setEntry st.entries (m.serviceName, saltStorageKey) salt })

end SecretsManager

/-! Basic lemmas about the association-list store. -/

theorem findEntry_setEntry_self (l : Entries) (k : StoreKey) (v : String) :
    findEntry (setEntry l k v) k = some v := by
  induction l with
  | nil => simp [setEntry, findEntry]
  | cons hd tl ih =>
    obtain ⟨k', v'⟩ := hd
    by_cases h : k' = k
    · simp [setEntry, findEntry, h]
    · simp [setEntry, findEntry, h, ih]

theorem findEntry_setEntry_ne (l : Entries) (k k' : StoreKey) (v : String)
    (h : k' ≠ k) : findEntry (setEntry l k v) k' = findEntry l k' := by
  induction l with
  | nil => simp [setEntry, findEntry, h, Ne.symm h]
  | cons hd tl ih =>
    obtain ⟨k₀, v₀⟩ := hd
    by_cases hk : k₀ = k
    · subst hk
      simp [setEntry, findEntry, h, Ne.symm h]
    · by_cases hk' : k₀ = k'
      · subst hk'
        simp [setEntry, findEntry, hk, h]
      · simp [setEntry, findEntry, hk, hk', ih]

theorem findEntry_removeEntry_self (l : Entries) (k : StoreKey) :
    findEntry (removeEntry l k) k = none := by
  induction l with
  | nil => simp [removeEntry, findEntry]
  | cons hd tl ih =>
    obtain ⟨k', v'⟩ := hd
    by_cases h : k' = k
    · simp [removeEntry, h, ih]
    · simp [removeEntry, findEntry, h, ih]

/-! Helper lemmas about the manager operations, shared by the claim
theorems below. -/

/-- When the environment value for `name` is missing or blank,
`getSecret` falls through to the store-lookup phase. -/
theorem getSecret_of_envBlank (env : EnvProvider) (st : Keytar)
    (m : SecretsManager) (name : String) (h : envBlank env name = true) :
    SecretsManager.getSecret env st m name =
      SecretsManager.getSecretFromStore st m name := by
  unfold envBlank at h
  unfold SecretsManager.getSecret
  cases henv : env name with
  | none => rfl
  | some v =>
    rw [henv] at h
    have hcond : (v != "" && jsTrim v != "") = false := by
      simp only [Bool.or_eq_true, beq_iff_eq] at h
      rcases h with h1 | h1 <;> simp [h1]
    simp [hcond]

/-- A store failure makes the store-lookup phase of `getSecret` return
the absent marker `""`. -/
theorem getSecretFromStore_of_unavailable (st : Keytar) (m : SecretsManager)
    (name : String) (hfail : st.importable = false ∨ st.callsFail = true) :
    SecretsManager.getSecretFromStore st m name = "" := by
  unfold SecretsManager.getSecretFromStore
  rcases hfail with h | h <;> simp [h]

/-- A store failure makes `setSecretToKeytar` surface an error to its
caller. -/
theorem setSecretToKeytar_error_of_unavailable (st : Keytar)
    (m : SecretsManager) (name value : String)
    (hfail : st.importable = false ∨ st.callsFail = true) :
    ∃ e, SecretsManager.setSecretToKeytar st m name value = .error e := by
  unfold SecretsManager.setSecretToKeytar
  rcases hfail with h | h
  · exact ⟨.moduleUnavailable, by simp [h]⟩
  · cases himp : st.importable
    · exact ⟨.moduleUnavailable, by simp⟩
    · exact ⟨.callFailed, by simp [h]⟩

/-- A store failure makes `deleteSecretFromKeytar` surface an error to
its caller. -/
theorem deleteSecretFromKeytar_error_of_unavailable (st : Keytar)
    (m : SecretsManager) (name : String)
    (hfail : st.importable = false ∨ st.callsFail = true) :
    ∃ e, SecretsManager.deleteSecretFromKeytar st m name = .error e := by
  unfold SecretsManager.deleteSecretFromKeytar
  rcases hfail with h | h
  · exact ⟨.moduleUnavailable, by simp [h]⟩
  · cases himp : st.importable
    · exact ⟨.moduleUnavailable, by simp⟩
    · exact ⟨.callFailed, by simp [h]⟩

/-- A successful `setSecretToKeytar` pins down the store flags and the
resulting state: the store was fully available and the result is the
input state with `(serviceName, name)` overwritten to `value`. -/
theorem setSecretToKeytar_ok_elim (st st2 : Keytar) (m : SecretsManager)
    (name value : String)
    (hset : SecretsManager.setSecretToKeytar st m name value = .ok st2) :
    st.importable = true ∧ st.callsFail = false ∧
      st2 = { st with entries := setEntry st.entries (m.serviceName, name) value } := by
  unfold SecretsManager.setSecretToKeytar at hset
  cases himp : st.importable with
  | false => rw [himp] at hset; simp at hset
  | true =>
    cases hcalls : st.callsFail with
    | true => rw [himp, hcalls] at hset; simp at hset
    | false =>
      rw [himp, hcalls] at hset
      simp at hset
      exact ⟨rfl, rfl, hset.symm⟩

/-! Claim theorems. -/

/-- C1: for every secret name whose environment value is present and
non-blank with value `v`, `getSecret(name)` returns `v` without
consulting the credential store — the result is `v` for every store
state `st`, regardless of what the store holds for that name. -/
theorem C1_env_value_short_circuits (env : EnvProvider) (st : Keytar)
    (m : SecretsManager) (name v : String)
    (hpresent : env name = some v)
    (hnonblank : (v != "" && jsTrim v != "") = true) :
    SecretsManager.getSecret env st m name = v := by
  unfold SecretsManager.getSecret
  rw [hpresent]
  simp [hnonblank]

/-- C1 witness: with `DB_PASSWORD` set to `"env-pw"` in the environment
and a different value in the store, `getSecret` returns the environment
value. -/
theorem C1_env_value_short_circuits_witness :
    SecretsManager.getSecret
      (fun n => if n = "DB_PASSWORD" then some "env-pw" else none)
      ⟨true, false, [(("svc", "DB_PASSWORD"), "store-pw")]⟩
      ⟨"svc"⟩ "DB_PASSWORD" = "env-pw" :=
  C1_env_value_short_circuits
    (fun n => if n = "DB_PASSWORD" then some "env-pw" else none)
    ⟨true, false, [(("svc", "DB_PASSWORD"), "store-pw")]⟩
    ⟨"svc"⟩ "DB_PASSWORD" "env-pw" (by simp) (by decide)

/-- C3: a `StoreUnavailable` condition (the keytar module cannot be
obtained, or calls on it fail) is raised to the caller as an error by
`setSecretToKeytar` and `deleteSecretFromKeytar`, but `getSecret` — a
total `String`-valued function — never raises it: with no environment
override for the name, a store failure during `getSecret` yields the
absent result `""` instead of an error. -/
theorem C3_store_unavailable_policy (env : EnvProvider) (st : Keytar)
    (m : SecretsManager) (name value : String)
    (hfail : st.importable = false ∨ st.callsFail = true)
    (henv : envBlank env name = true) :
    (∃ e, SecretsManager.setSecretToKeytar st m name value = .error e) ∧
    (∃ e, SecretsManager.deleteSecretFromKeytar st m name = .error e) ∧
    SecretsManager.getSecret env st m name = "" := by
  refine ⟨setSecretToKeytar_error_of_unavailable st m name value hfail,
          deleteSecretFromKeytar_error_of_unavailable st m name hfail, ?_⟩
  rw [getSecret_of_envBlank env st m name henv]
  exact getSecretFromStore_of_unavailable st m name hfail

/-- C3 witness: with the keytar module unimportable and an empty
environment, the write and delete paths error while `getSecret` returns
`""`. -/
theorem C3_store_unavailable_policy_witness :
    (∃ e, SecretsManager.setSecretToKeytar ⟨false, false, []⟩ ⟨"svc"⟩ "K" "v" =
      .error e) ∧
    (∃ e, SecretsManager.deleteSecretFromKeytar ⟨false, false, []⟩ ⟨"svc"⟩ "K" =
      .error e) ∧
    SecretsManager.getSecret (fun _ => none) ⟨false, false, []⟩ ⟨"svc"⟩ "K" = "" :=
  C3_store_unavailable_policy (fun _ => none) ⟨false, false, []⟩ ⟨"svc"⟩
    "K" "v" (Or.inl rfl) rfl

/-- C6: round-trip — for every name whose environment value is missing
or blank, after `setSecretToKeytar(name, v)` succeeds, `getSecret(name)`
on the resulting store returns `v`. -/
theorem C6_round_trip (env : EnvProvider) (st st2 : Keytar)
    (m : SecretsManager) (name value : String)
    (henv : envBlank env name = true)
    (hset : SecretsManager.setSecretToKeytar st m name value = .ok st2) :
    SecretsManager.getSecret env st2 m name = value := by
  obtain ⟨himp, hcalls, hst2⟩ := setSecretToKeytar_ok_elim st st2 m name value hset
  subst hst2
  rw [getSecret_of_envBlank _ _ _ _ henv]
  unfold SecretsManager.getSecretFromStore
  simp only [himp, hcalls]
  rw [findEntry_setEntry_self]
  by_cases hv : value = "" <;> simp [hv]

/-- C6 witness: after writing `N = "val"` into an available empty store,
`getSecret` with an empty environment returns `"val"`. -/
theorem C6_round_trip_witness :
    SecretsManager.getSecret (fun _ => none)
      ⟨true, false, [(("svc", "N"), "val")]⟩ ⟨"svc"⟩ "N" = "val" :=
  C6_round_trip (fun _ => none) ⟨true, false, []⟩
    ⟨true, false, [(("svc", "N"), "val")]⟩ ⟨"svc"⟩ "N" "val" rfl rfl

/-- C8: for every name whose environment value is absent, empty, or
whitespace-only, `saveEnvToKeytar(name)` returns `false` and leaves the
credential store entirely unchanged. -/
theorem C8_blank_env_no_mutation (env : EnvProvider) (st : Keytar)
    (m : SecretsManager) (name : String)
    (henv : envBlank env name = true) :
    SecretsManager.saveEnvToKeytar env st m name = (false, st) := by
  unfold envBlank at henv
  unfold SecretsManager.saveEnvToKeytar
  cases h : env name with
  | none => rfl
  | some v =>
    rw [h] at henv
    simp only [Bool.or_eq_true, beq_iff_eq] at henv
    rcases henv with h1 | h1 <;> simp [h1]

/-- C8 witness: with `W` bound to a whitespace-only value,
`saveEnvToKeytar` returns `false` and the store state is unchanged. -/
theorem C8_blank_env_no_mutation_witness :
    SecretsManager.saveEnvToKeytar
      (fun n => if n = "W" then some "   " else none)
      ⟨true, false, [(("svc", "K"), "v")]⟩ ⟨"svc"⟩ "W" =
      (false, ⟨true, false, [(("svc", "K"), "v")]⟩) :=
  C8_blank_env_no_mutation (fun n => if n = "W" then some "   " else none)
    ⟨true, false, [(("svc", "K"), "v")]⟩ ⟨"svc"⟩ "W" (by decide)

/-- C2 counterexample: the claim fails on the code.  With no salt entry
anywhere in the store for base service `"svc"`, `setSecretToKeytar
"API_KEY" "v1"` does not fail with `SaltMissing` — it succeeds, and it
writes the value under the key `("svc", "API_KEY")`, i.e. under
`baseServiceName` itself rather than under any salted scope
`"svc-" ++ salt`. -/
theorem C2_counterexample :
    SecretsManager.setSecretToKeytar ⟨true, false, []⟩ ⟨"svc"⟩ "API_KEY" "v1" =
      .ok ⟨true, false, [(("svc", "API_KEY"), "v1")]⟩ := rfl

/-- C2 (amended): for every secret name, `setSecretToKeytar(name, value)`
on an available store succeeds and writes the value into the store under
`serviceName` itself — the code performs no salt scoping and has no
`SaltMissing` failure; it fails only when the keytar module cannot be
loaded or the store call fails. -/
theorem C2_amended_set_writes_under_base (st : Keytar) (m : SecretsManager)
    (name value : String) (himp : st.importable = true)
    (hcalls : st.callsFail = false) :
    ∃ st2, SecretsManager.setSecretToKeytar st m name value = .ok st2 ∧
      findEntry st2.entries (m.serviceName, name) = some value := by
  refine ⟨{ st with entries := setEntry st.entries (m.serviceName, name) value },
          ?_, ?_⟩
  · unfold SecretsManager.setSecretToKeytar
    simp [himp, hcalls]
  · exact findEntry_setEntry_self st.entries (m.serviceName, name) value

/-- C2 (amended) witness: on an available empty store, writing `K = "v"`
succeeds and the value is found under `("svc", "K")`. -/
theorem C2_amended_set_writes_under_base_witness :
    ∃ st2, SecretsManager.setSecretToKeytar ⟨true, false, []⟩ ⟨"svc"⟩ "K" "v" =
        .ok st2 ∧
      findEntry st2.entries ("svc", "K") = some "v" :=
  C2_amended_set_writes_under_base ⟨true, false, []⟩ ⟨"svc"⟩ "K" "v" rfl rfl

/-- C4 (initializeSalt modelled from the spec, on an available store):
(a) whenever a salt `s` already exists for the base service,
`initializeSalt` returns `s` and leaves the store unchanged, for every
provided-salt argument (including none) and every generated token; (b)
two successive `initializeSalt` calls with no provided salt and no
external mutation return the same salt both times. -/
theorem C4_initializeSalt_idempotent (st : Keytar) (m : SecretsManager)
    (key g g2 : String) (himp : st.importable = true)
    (hcalls : st.callsFail = false) :
    (∀ s, findEntry st.entries (m.serviceName, key) = some s →
      ∀ (x : Option String) (gen : String),
        SecretsManager.initializeSalt st m key x gen = .ok (s, st)) ∧
    (∀ s1 st1, SecretsManager.initializeSalt st m key none g = .ok (s1, st1) →
      ∃ st2, SecretsManager.initializeSalt st1 m key none g2 = .ok (s1, st2)) := by
  constructor
  · intro s hs x gen
    unfold SecretsManager.initializeSalt
    simp [himp, hcalls, hs]
  · intro s1 st1 h1
    unfold SecretsManager.initializeSalt at h1 ⊢
    simp only [himp, hcalls, Bool.not_true, Bool.false_eq_true, if_false,
      if_true] at h1
    cases hs : findEntry st.entries (m.serviceName, key) with
    | some s =>
      rw [hs] at h1
      simp at h1
      obtain ⟨hs1, hst1⟩ := h1
      subst hs1; subst hst1
      simp [himp, hcalls, hs]
    | none =>
      rw [hs] at h1
      simp at h1
      obtain ⟨hs1, hst1⟩ := h1
      subst hs1; subst hst1
      simp [himp, hcalls, findEntry_setEntry_self]

/-- C4 witness: with salt `"abc123"` already stored for `svc-1` under
`salt-key`, `initializeSalt (some "X")` returns `"abc123"` — not `"X"` —
and leaves the store unchanged. -/
theorem C4_initializeSalt_idempotent_witness :
    SecretsManager.initializeSalt
        ⟨true, false, [(("svc-1", "salt-key"), "abc123")]⟩
        ⟨"svc-1"⟩ "salt-key" (some "X") "generated" =
      .ok ("abc123", ⟨true, false, [(("svc-1", "salt-key"), "abc123")]⟩) :=
  (C4_initializeSalt_idempotent
      ⟨true, false, [(("svc-1", "salt-key"), "abc123")]⟩
      ⟨"svc-1"⟩ "salt-key" "g" "g2" rfl rfl).1
    "abc123" (by simp [findEntry]) (some "X") "generated"

/-- C5: scope isolation — for two managers with different `serviceName`
values sharing one store, a successful `setSecretToKeytar K v` through
the first manager never changes what `getSecret K` (with no environment
override) returns through the second. -/
theorem C5_scope_isolation (env : EnvProvider) (st st2 : Keytar)
    (m1 m2 : SecretsManager) (K v : String)
    (hne : m1.serviceName ≠ m2.serviceName)
    (henv : envBlank env K = true)
    (hset : SecretsManager.setSecretToKeytar st m1 K v = .ok st2) :
    SecretsManager.getSecret env st2 m2 K =
      SecretsManager.getSecret env st m2 K := by
  obtain ⟨himp, hcalls, hst2⟩ := setSecretToKeytar_ok_elim st st2 m1 K v hset
  subst hst2
  rw [getSecret_of_envBlank _ _ _ _ henv, getSecret_of_envBlank _ _ _ _ henv]
  unfold SecretsManager.getSecretFromStore
  have hkey : (m2.serviceName, K) ≠ (m1.serviceName, K) := by
    intro hcontra
    exact hne (congrArg Prod.fst hcontra).symm
  rw [findEntry_setEntry_ne st.entries (m1.serviceName, K) (m2.serviceName, K)
    v hkey]

/-- C5 witness: manager `"a"` writing `K = "v"` does not change what
manager `"b"` reads for `K` from the shared store. -/
theorem C5_scope_isolation_witness :
    SecretsManager.getSecret (fun _ => none)
        ⟨true, false, [(("a", "K"), "v")]⟩ ⟨"b"⟩ "K" =
      SecretsManager.getSecret (fun _ => none) ⟨true, false, []⟩ ⟨"b"⟩ "K" :=
  C5_scope_isolation (fun _ => none) ⟨true, false, []⟩
    ⟨true, false, [(("a", "K"), "v")]⟩ ⟨"a"⟩ ⟨"b"⟩ "K" "v"
    (by decide) rfl rfl

/-- C7: on an available store, `deleteSecretFromKeytar(name)` returns
`.ok` (never an error) carrying `true` exactly when an entry for
`(serviceName, name)` actually existed and `false` when it did not; and
on the resulting store, `getSecret(name)` with no environment override
returns the absent result `""`. -/
theorem C7_delete_semantics (env : EnvProvider) (st : Keytar)
    (m : SecretsManager) (name : String)
    (himp : st.importable = true) (hcalls : st.callsFail = false)
    (henv : envBlank env name = true) :
    ∃ b st2, SecretsManager.deleteSecretFromKeytar st m name = .ok (b, st2) ∧
      (b = true ↔ (findEntry st.entries (m.serviceName, name)).isSome = true) ∧
      SecretsManager.getSecret env st2 m name = "" := by
  refine ⟨(findEntry st.entries (m.serviceName, name)).isSome,
          { st with entries := removeEntry st.entries (m.serviceName, name) },
          ?_, Iff.rfl, ?_⟩
  · unfold SecretsManager.deleteSecretFromKeytar
    simp [himp, hcalls]
  · rw [getSecret_of_envBlank _ _ _ _ henv]
    unfold SecretsManager.getSecretFromStore
    simp [himp, hcalls, findEntry_removeEntry_self]

/-- C7 witness: deleting existing entry `K` from an available store
yields `.ok` with `true`, and a subsequent `getSecret` returns `""`. -/
theorem C7_delete_semantics_witness :
    ∃ b st2, SecretsManager.deleteSecretFromKeytar
        ⟨true, false, [(("svc", "K"), "v")]⟩ ⟨"svc"⟩ "K" = .ok (b, st2) ∧
      (b = true ↔
        (findEntry [(("svc", "K"), "v")] ("svc", "K")).isSome = true) ∧
      SecretsManager.getSecret (fun _ => none) st2 ⟨"svc"⟩ "K" = "" :=
  C7_delete_semantics (fun _ => none) ⟨true, false, [(("svc", "K"), "v")]⟩
    ⟨"svc"⟩ "K" rfl rfl rfl

/-- C9: `getSecret` represents the absent outcome as the empty string —
for a name with no environment override it is a total `String`-valued
function (never null, never an exception) returning `""` when (a) the
store is available but holds no entry for the name, (b) the store lookup
fails, and (c) the store holds an entry whose stored value is the empty
string — so a caller cannot distinguish an empty-valued stored secret
from a missing one. -/
theorem C9_absent_is_empty_string (env : EnvProvider) (st : Keytar)
    (m : SecretsManager) (name : String)
    (henv : envBlank env name = true) :
    (st.importable = true → st.callsFail = false →
      findEntry st.entries (m.serviceName, name) = none →
      SecretsManager.getSecret env st m name = "") ∧
    (st.importable = false ∨ st.callsFail = true →
      SecretsManager.getSecret env st m name = "") ∧
    (findEntry st.entries (m.serviceName, name) = some "" →
      SecretsManager.getSecret env st m name = "") := by
  refine ⟨?_, ?_, ?_⟩
  · intro himp hcalls hnone
    rw [getSecret_of_envBlank _ _ _ _ henv]
    unfold SecretsManager.getSecretFromStore
    simp [himp, hcalls, hnone]
  · intro hfail
    rw [getSecret_of_envBlank _ _ _ _ henv]
    exact getSecretFromStore_of_unavailable st m name hfail
  · intro hempty
    rw [getSecret_of_envBlank _ _ _ _ henv]
    unfold SecretsManager.getSecretFromStore
    cases himp : st.importable <;> cases hcalls : st.callsFail <;>
      simp [hempty]

/-- C9 witness: with an empty environment and a store holding `E = ""`,
all three absent scenarios of the claim evaluate to `""` on the concrete
input (the first two implications hold vacuously there). -/
theorem C9_absent_is_empty_string_witness :
    ((⟨true, false, [(("svc", "E"), "")]⟩ : Keytar).importable = true →
      (⟨true, false, [(("svc", "E"), "")]⟩ : Keytar).callsFail = false →
      findEntry [(("svc", "E"), "")] ("svc", "E") = none →
      SecretsManager.getSecret (fun _ => none)
        ⟨true, false, [(("svc", "E"), "")]⟩ ⟨"svc"⟩ "E" = "") ∧
    ((⟨true, false, [(("svc", "E"), "")]⟩ : Keytar).importable = false ∨
      (⟨true, false, [(("svc", "E"), "")]⟩ : Keytar).callsFail = true →
      SecretsManager.getSecret (fun _ => none)
        ⟨true, false, [(("svc", "E"), "")]⟩ ⟨"svc"⟩ "E" = "") ∧
    (findEntry [(("svc", "E"), "")] ("svc", "E") = some "" →
      SecretsManager.getSecret (fun _ => none)
        ⟨true, false, [(("svc", "E"), "")]⟩ ⟨"svc"⟩ "E" = "") :=
  C9_absent_is_empty_string (fun _ => none)
    ⟨true, false, [(("svc", "E"), "")]⟩ ⟨"svc"⟩ "E" rfl

/-- C10: `saveEnvToKeytar` never raises — for every name whose
environment value is present and non-blank, when the underlying store
write fails (module unimportable or the set call errors) the failure is
caught and the call returns `false`, leaving the store state unchanged,
rather than propagating an error (the function is total with result type
`Bool × Keytar`). -/
theorem C10_save_env_catches_store_failure (env : EnvProvider) (st : Keytar)
    (m : SecretsManager) (name v : String)
    (hpresent : env name = some v)
    (hnonblank : (v == "" || jsTrim v == "") = false)
    (hfail : st.importable = false ∨ st.callsFail = true) :
    SecretsManager.saveEnvToKeytar env st m name = (false, st) := by
  unfold SecretsManager.saveEnvToKeytar
  rw [hpresent]
  obtain ⟨e, he⟩ := setSecretToKeytar_error_of_unavailable st m name v hfail
  simp [hnonblank, he]

/-- C10 witness: with `S` set to a non-blank value but the keytar module
unimportable, `saveEnvToKeytar` returns `false` with the store
unchanged. -/
theorem C10_save_env_catches_store_failure_witness :
    SecretsManager.saveEnvToKeytar
      (fun n => if n = "S" then some "val" else none)
      ⟨false, false, [(("svc", "K"), "v")]⟩ ⟨"svc"⟩ "S" =
      (false, ⟨false, false, [(("svc", "K"), "v")]⟩) :=
  C10_save_env_catches_store_failure
    (fun n => if n = "S" then some "val" else none)
    ⟨false, false, [(("svc", "K"), "v")]⟩ ⟨"svc"⟩ "S" "val"
    (by simp) (by decide) (Or.inl rfl)

end KeytarSecrets
